import Mathlib

/-!
Shallow embedding of `freqtrade/plugins/protections/iprotection.py`
(class `IProtection`), the trading-protection base component.

Modelling conventions:
* Python `datetime` values are modelled at second granularity by the
  structure `DateTime` (proleptic Gregorian calendar fields, always
  interpreted as UTC; the `replace(tzinfo=utc)` normalisation of a naive
  timestamp is the identity in this representation).  Absolute instants,
  where only arithmetic on them matters (`calculate_lock_end`,
  `calculate_timespan`), are modelled as `Int` seconds.
* Fallible Python code (raised `ValueError` / `KeyError` / `TypeError`)
  is modelled with `Option`: `none` means the call raises.
* `Dict[str, Any]` configuration mappings are modelled as association
  lists `PDict` over a value type `PVal` covering the int and string
  values the component reads.
* `int(x/60)` on a float truncates toward zero; at second granularity
  this is exactly `Int.tdiv _ 60`.
-/

/-- Values stored in a configuration mapping (`Dict[str, Any]`):
the component only ever reads ints and strings. -/
inductive PVal where
  | vInt : Int → PVal
  | vStr : String → PVal
deriving DecidableEq, Repr

/-- A Python `Dict[str, Any]` as an association list (first binding wins,
mirroring unique-key dictionaries). -/
abbrev PDict := List (String × PVal)

/-- Lookup `d[k]` / membership test `k in d`: the value bound to `k`, if any. -/
def pdGet (d : PDict) (k : String) : Option PVal :=
  (d.find? (fun p => p.1 = k)).map (fun p => p.2)

/-- Lookup with default, `d.get(k, default)`. -/
def pdGetD (d : PDict) (k : String) (dflt : PVal) : PVal :=
  (pdGet d k).getD dflt

/-- Python `int(v)`: identity on ints, decimal parse of strings
(`none` models the raised `ValueError` on unparsable strings). -/
def pyInt : PVal → Option Int
  | PVal.vInt n => some n
  | PVal.vStr s => s.toInt?

/-- Python `str(...)` applied to the result of `dict.get` (line 113):
`str(None) = "None"` when the key is absent. -/
def pyStrOf : Option PVal → String
  | some (PVal.vStr s) => s
  | some (PVal.vInt n) => toString n
  | none => "None"

/-- Gregorian leap-year rule (as in Python's `datetime`/`calendar`). -/
def isLeap (y : Nat) : Bool :=
  (y % 4 == 0 && y % 100 != 0) || y % 400 == 0

/-- Days in a month of the proleptic Gregorian calendar. -/
def daysInMonth (y m : Nat) : Nat :=
  if m = 2 then (if isLeap y then 29 else 28)
  else if m = 4 ∨ m = 6 ∨ m = 9 ∨ m = 11 then 30
  else 31

/-- Days in the months of year `y` strictly before month `m`. -/
def daysBeforeMonth (y m : Nat) : Nat :=
  ((List.range (m - 1)).map (fun i => daysInMonth y (i + 1))).sum

/-- Days in the years strictly before year `y` (year 1 is the first). -/
def daysBeforeYear (y : Nat) : Nat :=
  365 * (y - 1) + (y - 1) / 4 + (y - 1) / 400 - (y - 1) / 100

/-- A Python `datetime` at second granularity, interpreted as UTC. -/
structure DateTime where
  year : Nat
  month : Nat
  day : Nat
  hour : Nat
  minute : Nat
  second : Nat
deriving DecidableEq, Repr

/-- Validity of the calendar fields, as enforced by `datetime`'s
constructor and `replace`. -/
def DateTime.IsValid (t : DateTime) : Prop :=
  1 ≤ t.year ∧ 1 ≤ t.month ∧ t.month ≤ 12 ∧ 1 ≤ t.day ∧
    t.day ≤ daysInMonth t.year t.month ∧
    t.hour ≤ 23 ∧ t.minute ≤ 59 ∧ t.second ≤ 59

instance (t : DateTime) : Decidable t.IsValid := by
  unfold DateTime.IsValid; infer_instance

/-- The instant as a second count (proleptic Gregorian day number times
86400 plus the second of the day); differences of `toSec` agree with
Python `timedelta.total_seconds()`. -/
def DateTime.toSec (t : DateTime) : Nat :=
  86400 * (daysBeforeYear t.year + daysBeforeMonth t.year t.month + t.day)
    + 3600 * t.hour + 60 * t.minute + t.second

/-- Comparison `a.time() < b.time()` (line 116): lexicographic comparison of the
wall-clock time-of-day fields. -/
def DateTime.timeLt (a b : DateTime) : Prop :=
  a.hour < b.hour ∨ (a.hour = b.hour ∧
    (a.minute < b.minute ∨ (a.minute = b.minute ∧ a.second < b.second)))

instance (a b : DateTime) : Decidable (a.timeLt b) := by
  unfold DateTime.timeLt; infer_instance

/-- Parsing `datetime.strptime(s, "%H:%M")`, reduced to the parsed hour/minute
pair (the defaulted 1900-01-01 date part is immediately overwritten at
line 114).  Each field is one or two digits; hour ≤ 23, minute ≤ 59;
no surrounding text.  `none` models the raised `ValueError`. -/
def parse2Digits : List Char → Option (Nat × List Char)
  | c1 :: c2 :: rest =>
      if c1.isDigit then
        if c2.isDigit then some (10 * (c1.toNat - 48) + (c2.toNat - 48), rest)
        else some (c1.toNat - 48, c2 :: rest)
      else none
  | [c1] => if c1.isDigit then some (c1.toNat - 48, []) else none
  | [] => none

def strptimeHM (s : String) : Option (Nat × Nat) :=
  match parse2Digits s.toList with
  | some (h, c :: rest) =>
      if c = ':' then
        match parse2Digits rest with
        | some (m, []) => if h ≤ 23 ∧ m ≤ 59 then some (h, m) else none
        | _ => none
      else none
  | _ => none

/-- A trade record, reduced to the one field this component reads:
`close_date` as an optional UTC instant in seconds (a naive stored time
is read as UTC, so the `replace(tzinfo=utc)` at line 156 is the
identity here). -/
structure LocalTrade where
  close_date : Option Int
deriving DecidableEq, Repr

/-- Static method `IProtection.calculate_timespan` (lines 162-171): whole minutes
between two instants, `int(total_seconds / 60)`, which truncates toward
zero. -/
def calculate_timespan (start_time end_time : Int) : Int :=
  Int.tdiv (end_time - start_time) 60

/-- Static method `IProtection.calculate_lock_end` (lines 148-160): maximum close
date of the trades that have one, plus `stop_minutes` minutes.
`none` models the `ValueError` Python's `max` raises on an empty
sequence. -/
def calculate_lock_end (trades : List LocalTrade) (stop_minutes : Int) :
    Option Int :=
  match (trades.filterMap (fun t => t.close_date)).max? with
  | none => none
  | some max_date => some (max_date + 60 * stop_minutes)

/-- Per-instance state of `IProtection` after `__init__`. -/
structure IProtection where
  _config : PDict
  _protection_config : PDict
  _stop_duration_candles : Option Int
  _lookback_period_candles : Option Int
  unlock_at : Option DateTime
  _stop_duration : Int
  _lookback_period : Int
deriving DecidableEq, Repr

/-- Method `IProtection.calculate_unlock_at` (lines 106-121), as a function of
the protection config and the current UTC instant (`datetime.now`).
Returns the new stop duration together with the stored `unlock_at`
timestamp; `none` models a raised `ValueError` (unparsable `unlock_at`
string, or `replace(day=now.day + 1)` with an out-of-range day at line
117). -/
def calculate_unlock_at (pcfg : PDict) (now_time : DateTime) :
    Option (Int × DateTime) :=
  match strptimeHM (pyStrOf (pdGet pcfg "unlock_at")) with
  | none => none
  | some (hh, mm) =>
    -- strptime result with day/year/month replaced by now's (line 114)
    let ua : DateTime :=
      ⟨now_time.year, now_time.month, now_time.day, hh, mm, 0⟩
    let rolled : Option DateTime :=
      if ua.timeLt now_time then
        -- replace(day = now.day + 1) validates the raw day-of-month
        if now_time.day + 1 ≤ daysInMonth now_time.year now_time.month then
          some { ua with day := now_time.day + 1 }
        else none
      else some ua
    match rolled with
    | none => none
    | some u =>
      some (calculate_timespan (DateTime.toSec now_time : Int)
              (DateTime.toSec u : Int), u)

/-- Method `IProtection.set_unlock_at_as_stop_duration` (lines 93-104) acting
on the state; the `Bool` records whether the missing-`unlock_at`
warning was logged. -/
def set_unlock_at_as_stop_duration (s : IProtection) (now_time : DateTime) :
    Option (IProtection × Bool) :=
  if (pdGet s._protection_config "unlock_at").isSome then
    match calculate_unlock_at s._protection_config now_time with
    | none => none
    | some (d, ua) =>
        some ({ s with _stop_duration := d, unlock_at := some ua }, false)
  else
    some (s, true)

/-- One `if "<key>_candles" in protection_config ... else ...` block of
`__init__` (lines 39-43 and, with the other key pair, lines 44-48):
returns `(candles?, minutes)`; `none` models a raised `ValueError` from
`int(...)` on an unparsable value. -/
def resolveWindow (tf_in_min : Int) (pcfg : PDict)
    (candles_key minutes_key : String) : Option (Option Int × Int) :=
  if (pdGet pcfg candles_key).isSome then
    (pyInt (pdGetD pcfg candles_key (PVal.vInt 1))).map
      (fun n => (some n, tf_in_min * n))
  else
    (pyInt (pdGetD pcfg minutes_key (PVal.vInt 60))).map
      (fun n => (none, n))

/-- Lines 31-48 of `__init__`: the duration/lookback resolution given
the already-converted timeframe minutes (`tf_in_min`), before the
`set_unlock_at_as_stop_duration` call at line 50. -/
def initDurations (tf_in_min : Int) (config pcfg : PDict) :
    Option IProtection :=
  match resolveWindow tf_in_min pcfg "stop_duration_candles" "stop_duration",
        resolveWindow tf_in_min pcfg "lookback_period_candles"
          "lookback_period" with
  | some (c, d), some (lc, ld) => some ⟨config, pcfg, c, lc, none, d, ld⟩
  | _, _ => none

/-- Constructor `IProtection.__init__` (lines 31-52).  `tf_to_min` stands for the
external `timeframe_to_minutes` utility (from `freqtrade.exchange`, not
part of this core; `none` models its failure on a malformed timeframe).
The current UTC instant is passed explicitly.  The `Bool` is the
warning flag of `set_unlock_at_as_stop_duration`. -/
def IProtection.init (tf_to_min : String → Option Int)
    (config pcfg : PDict) (now_time : DateTime) :
    Option (IProtection × Bool) :=
  match pdGet config "timeframe" with
  | some (PVal.vStr tfs) =>
    match tf_to_min tfs with
    | none => none
    | some tf_in_min =>
      match initDurations tf_in_min config pcfg with
      | none => none
      | some s => set_unlock_at_as_stop_duration s now_time
  | _ => none

/-- Modelled from the spec: the pluralization helper
`plural(count, singular, plural)` from `freqtrade.misc`, which is not
part of this core's source.  Per the spec it renders the singular form
exactly for a count of 1 and the plural form otherwise. -/
def plural (num : Int) (singular plural_form : String) : String :=
  if num = 1 then singular else plural_form

/-- Property `IProtection.stop_duration_str` (lines 58-69).  Note that
`if self._stop_duration_candles:` tests Python truthiness: both `None`
and `0` select the minutes branch. -/
def stop_duration_str (s : IProtection) : String :=
  match s._stop_duration_candles with
  | some n =>
      if n ≠ 0 then
        toString n ++ " " ++ plural n "candle" "candles"
      else
        toString s._stop_duration ++ " " ++
          plural s._stop_duration "minute" "minutes"
  | none =>
      toString s._stop_duration ++ " " ++
        plural s._stop_duration "minute" "minutes"

/-! ### Helper lemmas -/

section Helpers

lemma resolveWindow_candles (T : Int) (pcfg : PDict) (ck mk : String)
    (N : Int) (h : pdGet pcfg ck = some (PVal.vInt N)) :
    resolveWindow T pcfg ck mk = some (some N, T * N) := by
  simp [resolveWindow, pdGetD, h, pyInt]

lemma resolveWindow_minutes_some (T : Int) (pcfg : PDict) (ck mk : String)
    (M : Int) (hc : pdGet pcfg ck = none)
    (hm : pdGet pcfg mk = some (PVal.vInt M)) :
    resolveWindow T pcfg ck mk = some (none, M) := by
  simp [resolveWindow, pdGetD, hc, hm, pyInt]

lemma resolveWindow_minutes_none (T : Int) (pcfg : PDict) (ck mk : String)
    (hc : pdGet pcfg ck = none) (hm : pdGet pcfg mk = none) :
    resolveWindow T pcfg ck mk = some (none, 60) := by
  simp [resolveWindow, pdGetD, hc, hm, pyInt]

/-- Whatever branch `initDurations` took, the constructed state stores
the two config mappings untouched and no `unlock_at` timestamp. -/
lemma initDurations_frame (T : Int) (config pcfg : PDict) (s : IProtection)
    (hs : initDurations T config pcfg = some s) :
    s._config = config ∧ s._protection_config = pcfg ∧
      s.unlock_at = none := by
  unfold initDurations at hs
  cases hsd : resolveWindow T pcfg "stop_duration_candles" "stop_duration" with
  | none => rw [hsd] at hs; simp at hs
  | some cd =>
    cases hlb : resolveWindow T pcfg "lookback_period_candles"
        "lookback_period" with
    | none => rw [hsd, hlb] at hs; simp at hs
    | some lb =>
      rw [hsd, hlb] at hs
      obtain ⟨c, d⟩ := cd
      obtain ⟨lc, ld⟩ := lb
      simp only [Option.some.injEq] at hs
      subst hs
      exact ⟨rfl, rfl, rfl⟩

/-- The step `set_unlock_at_as_stop_duration` never touches the stored config
mappings. -/
lemma set_unlock_frame (s s' : IProtection) (w : Bool) (now_time : DateTime)
    (h : set_unlock_at_as_stop_duration s now_time = some (s', w)) :
    s'._config = s._config ∧
      s'._protection_config = s._protection_config := by
  unfold set_unlock_at_as_stop_duration at h
  split at h
  · cases hc : calculate_unlock_at s._protection_config now_time with
    | none => rw [hc] at h; simp at h
    | some p =>
      rw [hc] at h
      obtain ⟨d, ua⟩ := p
      simp only [Option.some.injEq, Prod.mk.injEq] at h
      obtain ⟨hs', _⟩ := h
      subst hs'
      exact ⟨rfl, rfl⟩
  · simp only [Option.some.injEq, Prod.mk.injEq] at h
    obtain ⟨hs', _⟩ := h
    subst hs'
    exact ⟨rfl, rfl⟩

/-- Folding `max` over integers yields a greatest element of `a :: l`. -/
lemma foldl_max_spec (l : List Int) :
    ∀ a : Int, (l.foldl max a = a ∨ l.foldl max a ∈ l) ∧
      a ≤ l.foldl max a ∧ ∀ x ∈ l, x ≤ l.foldl max a := by
  induction l with
  | nil => intro a; exact ⟨Or.inl rfl, le_refl a, by simp⟩
  | cons b l ih =>
    intro a
    obtain ⟨hmem, hle, hall⟩ := ih (max a b)
    refine ⟨?_, le_trans (le_max_left a b) hle, ?_⟩
    · rcases hmem with hmem | hmem
      · rcases max_choice a b with hab | hab
        · exact Or.inl (by rw [List.foldl_cons, hmem, hab])
        · exact Or.inr (by rw [List.foldl_cons, hmem, hab]; exact
            List.mem_cons_self b l)
      · exact Or.inr (List.mem_cons_of_mem b hmem)
    · intro x hx
      rcases List.mem_cons.mp hx with rfl | hx
      · exact le_trans (le_max_right a x) hle
      · exact hall x hx

/-- The maximum `max?` of a nonempty list of integers is a greatest element. -/
lemma max?_spec (l : List Int) (hne : l ≠ []) :
    ∃ m, l.max? = some m ∧ m ∈ l ∧ ∀ x ∈ l, x ≤ m := by
  cases l with
  | nil => exact absurd rfl hne
  | cons a l =>
    obtain ⟨hmem, hle, hall⟩ := foldl_max_spec l a
    refine ⟨l.foldl max a, rfl, ?_, ?_⟩
    · rcases hmem with h | h
      · rw [h]; exact List.mem_cons_self a l
      · exact List.mem_cons_of_mem a h
    · intro x hx
      rcases List.mem_cons.mp hx with rfl | hx
      · exact hle
      · exact hall x hx

/-- A successful `strptime(_, "%H:%M")` yields a valid hour/minute. -/
lemma strptimeHM_bounds {s : String} {H M : Nat}
    (h : strptimeHM s = some (H, M)) : H ≤ 23 ∧ M ≤ 59 := by
  unfold strptimeHM at h
  cases hp : parse2Digits s.toList with
  | none => rw [hp] at h; simp at h
  | some p =>
    rw [hp] at h
    obtain ⟨h0, rest⟩ := p
    cases rest with
    | nil => simp at h
    | cons c rest =>
      simp only at h
      split at h
      · cases hq : parse2Digits rest with
        | none => rw [hq] at h; simp at h
        | some q =>
          rw [hq] at h
          obtain ⟨m0, rest2⟩ := q
          cases rest2 with
          | nil =>
            simp only at h
            split at h
            · simp only [Option.some.injEq, Prod.mk.injEq] at h
              obtain ⟨rfl, rfl⟩ := h
              assumption
            · simp at h
          | cons c2 rest2 => simp at h
      · simp at h

/-- Advancing the day field by one adds exactly one day of seconds. -/
lemma toSec_day_succ (y m d hh mm : Nat) :
    DateTime.toSec ⟨y, m, d + 1, hh, mm, 0⟩ =
      DateTime.toSec ⟨y, m, d, hh, mm, 0⟩ + 86400 := by
  simp [DateTime.toSec]
  ring

end Helpers

/-! ### Claims -/

/-- C1: the claim states that when the current date is the last day of a
month and the configured `unlock_at` time has already passed, the stored
`unlockAt` rolls over to the first day of the following month.  The code
instead performs `unlock_at.replace(day=now_time.day + 1)` (line 117),
which raises `ValueError` because day 32 is not a valid day of January:
the call fails instead of producing 2024-02-01 22:00 UTC. -/
theorem c1_month_end_unlock_raises :
    calculate_unlock_at [("unlock_at", PVal.vStr "22:00")]
      ⟨2024, 1, 31, 23, 0, 0⟩ = none := by decide

/-- C2 counterexample: at 10:00 UTC on the last day of a month with
`unlock_at = "09:00"`, the claim asserts the candidate is advanced one
day, stored, and a duration of 1380 minutes returned; the code instead
raises (`replace(day=32)`), so no value is stored or returned. -/
theorem c2_month_end_counterexample :
    calculate_unlock_at [("unlock_at", PVal.vStr "09:00")]
      ⟨2024, 1, 31, 10, 0, 0⟩ = none := by decide

/-- C5: `calculate_timespan` is the whole-minute span with truncation
toward zero: it vanishes on equal instants, maps a 90-minute span to
90, and is antisymmetric under swapping its arguments (the signature of
truncation toward zero — floor division would break this on spans that
are not whole minutes). -/
theorem c5_timespan_truncates :
    (∀ t : Int, calculate_timespan t t = 0) ∧
    (∀ t : Int, calculate_timespan t (t + 90 * 60) = 90) ∧
    (∀ s e : Int, calculate_timespan s e = - calculate_timespan e s) := by
  refine ⟨fun t => ?_, fun t => ?_, fun s e => ?_⟩
  · unfold calculate_timespan
    rw [sub_self]
    decide
  · unfold calculate_timespan
    rw [add_sub_cancel_left]
    decide
  · unfold calculate_timespan
    rw [show e - s = -(s - e) by ring, Int.neg_tdiv]

/-- C6: with an empty trade list, or one in which no trade has a close
date, `calculate_lock_end` fails (Python's `max` raises `ValueError` on
the empty sequence; modelled as `none`) instead of returning an
instant. -/
theorem c6_lock_end_no_closed_trades (trades : List LocalTrade)
    (stop_minutes : Int) (h : ∀ t ∈ trades, t.close_date = none) :
    calculate_lock_end trades stop_minutes = none := by
  unfold calculate_lock_end
  have hnil : trades.filterMap (fun t => t.close_date) = [] :=
    List.filterMap_eq_nil_iff.mpr h
  rw [hnil]
  rfl

/-- Witness for C6 at a concrete input. -/
theorem c6_lock_end_no_closed_trades_witness :
    calculate_lock_end [⟨none⟩, ⟨none⟩] 30 = none :=
  c6_lock_end_no_closed_trades [⟨none⟩, ⟨none⟩] 30 (by simp)

/-- C4: if some trade has a close date, `calculate_lock_end` returns
the greatest close date among the trades that have one, plus
`stop_minutes` minutes (60·`stop_minutes` seconds); zoneless close
dates are read as UTC, which is the identity in this representation of
instants. -/
theorem c4_lock_end_is_max_plus_stop (trades : List LocalTrade)
    (stop_minutes : Int) (h : ∃ t ∈ trades, t.close_date.isSome) :
    ∃ m, m ∈ trades.filterMap (fun t => t.close_date) ∧
      (∀ c ∈ trades.filterMap (fun t => t.close_date), c ≤ m) ∧
      calculate_lock_end trades stop_minutes =
        some (m + 60 * stop_minutes) := by
  obtain ⟨t, ht, hsome⟩ := h
  obtain ⟨d, hd⟩ := Option.isSome_iff_exists.mp hsome
  have hmem : d ∈ trades.filterMap (fun t => t.close_date) :=
    List.mem_filterMap.mpr ⟨t, ht, hd⟩
  have hne : trades.filterMap (fun t => t.close_date) ≠ [] :=
    List.ne_nil_of_mem hmem
  obtain ⟨m, hmax, hm, hall⟩ := max?_spec _ hne
  refine ⟨m, hm, hall, ?_⟩
  unfold calculate_lock_end
  rw [hmax]

/-- Witness for C4: close dates {100, 300, 200} and 30 stop minutes. -/
theorem c4_lock_end_is_max_plus_stop_witness :
    ∃ m, m ∈ ([⟨some 100⟩, ⟨none⟩, ⟨some 300⟩, ⟨some 200⟩] :
        List LocalTrade).filterMap (fun t => t.close_date) ∧
      (∀ c ∈ ([⟨some 100⟩, ⟨none⟩, ⟨some 300⟩, ⟨some 200⟩] :
          List LocalTrade).filterMap (fun t => t.close_date), c ≤ m) ∧
      calculate_lock_end [⟨some 100⟩, ⟨none⟩, ⟨some 300⟩, ⟨some 200⟩] 30 =
        some (m + 60 * 30) :=
  c4_lock_end_is_max_plus_stop _ 30
    ⟨⟨some 100⟩, List.mem_cons_self _ _, rfl⟩

/-- C3: at the stop-duration resolution step of construction (lines
39-43, prior to the `unlock_at` override of line 50): when the
protection config holds `stop_duration_candles = N`, the state gets
`stopDurationCandles = N` and `stopDurationMinutes = T * N` (candles
take precedence even when `stop_duration` is also present, since the
key test alone selects the branch); otherwise the candle count stays
absent and the minutes come from `stop_duration`, defaulting to 60. -/
theorem c3_stop_duration_resolution (T : Int) (config pcfg : PDict)
    (s : IProtection) (hs : initDurations T config pcfg = some s) :
    (∀ N : Int, pdGet pcfg "stop_duration_candles" = some (PVal.vInt N) →
        s._stop_duration_candles = some N ∧ s._stop_duration = T * N) ∧
    (pdGet pcfg "stop_duration_candles" = none →
        s._stop_duration_candles = none ∧
        (∀ M : Int, pdGet pcfg "stop_duration" = some (PVal.vInt M) →
            s._stop_duration = M) ∧
        (pdGet pcfg "stop_duration" = none → s._stop_duration = 60)) := by
  unfold initDurations at hs
  cases hlb : resolveWindow T pcfg "lookback_period_candles"
      "lookback_period" with
  | none =>
    rw [hlb] at hs
    cases hsd : resolveWindow T pcfg "stop_duration_candles"
        "stop_duration" with
    | none => rw [hsd] at hs; simp at hs
    | some cd => rw [hsd] at hs; obtain ⟨c, d⟩ := cd; simp at hs
  | some lb =>
    rw [hlb] at hs
    obtain ⟨lc, ld⟩ := lb
    constructor
    · intro N hN
      rw [resolveWindow_candles T pcfg _ _ N hN] at hs
      simp only [Option.some.injEq] at hs
      subst hs
      exact ⟨rfl, rfl⟩
    · intro hnone
      refine ⟨?_, ?_, ?_⟩
      · cases hm : pdGet pcfg "stop_duration" with
        | none =>
          rw [resolveWindow_minutes_none T pcfg _ _ hnone hm] at hs
          simp only [Option.some.injEq] at hs
          subst hs; rfl
        | some v =>
          rw [resolveWindow] at hs
          rw [hnone] at hs
          simp only [Option.isSome_none, Bool.false_eq_true, if_false] at hs
          cases hpy : pyInt (pdGetD pcfg "stop_duration" (PVal.vInt 60)) with
          | none => rw [hpy] at hs; simp at hs
          | some n =>
            rw [hpy] at hs
            dsimp only [Option.map] at hs
            simp only [Option.some.injEq] at hs
            subst hs; rfl
      · intro M hM
        rw [resolveWindow_minutes_some T pcfg _ _ M hnone hM] at hs
        simp only [Option.some.injEq] at hs
        subst hs; rfl
      · intro hm
        rw [resolveWindow_minutes_none T pcfg _ _ hnone hm] at hs
        simp only [Option.some.injEq] at hs
        subst hs; rfl

/-- Witness for C3: timeframe worth 5 minutes, 3 candles configured
with a competing `stop_duration` of 999, plus a minutes-only config. -/
theorem c3_stop_duration_resolution_witness :
    ((⟨[], [("stop_duration_candles", PVal.vInt 3),
        ("stop_duration", PVal.vInt 999)], some 3, none, none, 15, 60⟩ :
          IProtection)._stop_duration_candles = some 3 ∧
      (⟨[], [("stop_duration_candles", PVal.vInt 3),
        ("stop_duration", PVal.vInt 999)], some 3, none, none, 15, 60⟩ :
          IProtection)._stop_duration = 5 * 3) :=
  (c3_stop_duration_resolution 5 []
      [("stop_duration_candles", PVal.vInt 3),
       ("stop_duration", PVal.vInt 999)] _ (by decide)).1 3 (by decide)

/-- C7: when the protection config has no `unlock_at` key, the
`set_unlock_at_as_stop_duration` step of construction does not fail:
it returns the state of the duration-resolution step unchanged (so the
previously computed stop duration is retained and `unlock_at` stays
absent) and the warning flag is set. -/
theorem c7_missing_unlock_at_warns (T : Int) (config pcfg : PDict)
    (now_time : DateTime) (s : IProtection)
    (hmiss : pdGet pcfg "unlock_at" = none)
    (hs : initDurations T config pcfg = some s) :
    set_unlock_at_as_stop_duration s now_time = some (s, true) ∧
      s.unlock_at = none := by
  obtain ⟨-, hpc, hua⟩ := initDurations_frame T config pcfg s hs
  refine ⟨?_, hua⟩
  unfold set_unlock_at_as_stop_duration
  rw [hpc, hmiss]
  rfl

/-- Witness for C7 at a concrete config without `unlock_at`. -/
theorem c7_missing_unlock_at_warns_witness :
    set_unlock_at_as_stop_duration
        ⟨[], [("stop_duration", PVal.vInt 45)], none, none, none, 45, 60⟩
        ⟨2024, 1, 30, 10, 0, 0⟩ =
      some (⟨[], [("stop_duration", PVal.vInt 45)], none, none, none,
        45, 60⟩, true) ∧
    (⟨[], [("stop_duration", PVal.vInt 45)], none, none, none, 45, 60⟩ :
        IProtection).unlock_at = none :=
  c7_missing_unlock_at_warns 5 [] [("stop_duration", PVal.vInt 45)]
    ⟨2024, 1, 30, 10, 0, 0⟩ _ (by decide) (by decide)

/-- C10: construction only reads the two configuration mappings: the
constructed state holds them unchanged, with every key/value binding
present beforehand still present afterwards (the embedding is pure, so
the accessors and static helpers are read-only functions of the state
by construction). -/
theorem c10_config_not_mutated (tf_to_min : String → Option Int)
    (config pcfg : PDict) (now_time : DateTime) (s : IProtection)
    (w : Bool)
    (h : IProtection.init tf_to_min config pcfg now_time = some (s, w)) :
    s._config = config ∧ s._protection_config = pcfg ∧
      (∀ k v, pdGet pcfg k = some v →
        pdGet s._protection_config k = some v) ∧
      (∀ k v, pdGet config k = some v → pdGet s._config k = some v) := by
  unfold IProtection.init at h
  cases htf : pdGet config "timeframe" with
  | none => rw [htf] at h; simp at h
  | some v =>
    rw [htf] at h
    cases v with
    | vInt n => simp at h
    | vStr tfs =>
      simp only at h
      cases hmin : tf_to_min tfs with
      | none => rw [hmin] at h; simp at h
      | some tf_in_min =>
        rw [hmin] at h
        dsimp only at h
        cases hd : initDurations tf_in_min config pcfg with
        | none => rw [hd] at h; simp at h
        | some s0 =>
          rw [hd] at h
          obtain ⟨hc0, hp0, -⟩ :=
            initDurations_frame tf_in_min config pcfg s0 hd
          obtain ⟨hc, hp⟩ := set_unlock_frame s0 s w now_time h
          rw [hc, hp, hc0, hp0]
          exact ⟨rfl, rfl, fun k v hv => hv, fun k v hv => hv⟩

/-- Witness for C10 at a concrete construction. -/
theorem c10_config_not_mutated_witness :
    (⟨[("timeframe", PVal.vStr "5m")], [("stop_duration", PVal.vInt 45)],
        none, none, none, 45, 60⟩ : IProtection)._config =
      [("timeframe", PVal.vStr "5m")] ∧
    (⟨[("timeframe", PVal.vStr "5m")], [("stop_duration", PVal.vInt 45)],
        none, none, none, 45, 60⟩ : IProtection)._protection_config =
      [("stop_duration", PVal.vInt 45)] ∧
    (∀ k v, pdGet [("stop_duration", PVal.vInt 45)] k = some v →
      pdGet (⟨[("timeframe", PVal.vStr "5m")],
        [("stop_duration", PVal.vInt 45)],
        none, none, none, 45, 60⟩ : IProtection)._protection_config k =
          some v) ∧
    (∀ k v, pdGet [("timeframe", PVal.vStr "5m")] k = some v →
      pdGet (⟨[("timeframe", PVal.vStr "5m")],
        [("stop_duration", PVal.vInt 45)],
        none, none, none, 45, 60⟩ : IProtection)._config k = some v) :=
  c10_config_not_mutated (fun _ => some 5)
    [("timeframe", PVal.vStr "5m")] [("stop_duration", PVal.vInt 45)]
    ⟨2024, 1, 30, 10, 0, 0⟩ _ true (by decide)

/-- Reduction of `calculate_unlock_at` once the `unlock_at` string has
parsed to `(hh, mm)`. -/
lemma calculate_unlock_at_eq (pcfg : PDict) (now_time : DateTime)
    (hh mm : Nat)
    (hp : strptimeHM (pyStrOf (pdGet pcfg "unlock_at")) = some (hh, mm)) :
    calculate_unlock_at pcfg now_time =
      if (⟨now_time.year, now_time.month, now_time.day, hh, mm, 0⟩ :
          DateTime).timeLt now_time then
        (if now_time.day + 1 ≤ daysInMonth now_time.year now_time.month
          then
            some (calculate_timespan (DateTime.toSec now_time : Int)
              (DateTime.toSec ⟨now_time.year, now_time.month,
                now_time.day + 1, hh, mm, 0⟩ : Int),
              ⟨now_time.year, now_time.month, now_time.day + 1,
                hh, mm, 0⟩)
          else none)
      else
        some (calculate_timespan (DateTime.toSec now_time : Int)
          (DateTime.toSec ⟨now_time.year, now_time.month, now_time.day,
            hh, mm, 0⟩ : Int),
          ⟨now_time.year, now_time.month, now_time.day, hh, mm, 0⟩) := by
  unfold calculate_unlock_at
  rw [hp]
  dsimp only
  by_cases hlt : DateTime.timeLt
      ⟨now_time.year, now_time.month, now_time.day, hh, mm, 0⟩ now_time
  · simp only [if_pos hlt]
    by_cases hday :
        now_time.day + 1 ≤ daysInMonth now_time.year now_time.month
    · simp only [if_pos hday]
    · simp only [if_neg hday]
  · simp only [if_neg hlt]

/-- C9: whenever `calculate_unlock_at` returns without raising, the
returned stop duration is non-negative and the stored `unlock_at`
instant is not strictly before the current instant (zero duration is
possible when now is exactly the configured HH:MM). -/
theorem c9_unlock_never_in_past (pcfg : PDict) (now_time : DateTime)
    (d : Int) (ua : DateTime) (hv : now_time.IsValid)
    (h : calculate_unlock_at pcfg now_time = some (d, ua)) :
    0 ≤ d ∧ now_time.toSec ≤ ua.toSec := by
  obtain ⟨-, -, -, -, -, hhr, hmin, hsec⟩ := hv
  cases hp : strptimeHM (pyStrOf (pdGet pcfg "unlock_at")) with
  | none =>
    unfold calculate_unlock_at at h
    rw [hp] at h
    simp at h
  | some p =>
    obtain ⟨hh, mm⟩ := p
    obtain ⟨hH, hM⟩ := strptimeHM_bounds hp
    rw [calculate_unlock_at_eq pcfg now_time hh mm hp] at h
    by_cases hlt : DateTime.timeLt
        ⟨now_time.year, now_time.month, now_time.day, hh, mm, 0⟩ now_time
    · rw [if_pos hlt] at h
      by_cases hday :
          now_time.day + 1 ≤ daysInMonth now_time.year now_time.month
      · rw [if_pos hday] at h
        simp only [Option.some.injEq, Prod.mk.injEq] at h
        obtain ⟨hd', hua⟩ := h
        subst hua
        have hle : now_time.toSec ≤ DateTime.toSec
            ⟨now_time.year, now_time.month, now_time.day + 1,
              hh, mm, 0⟩ := by
          unfold DateTime.toSec
          dsimp only
          omega
        refine ⟨?_, hle⟩
        rw [← hd']
        exact Int.tdiv_nonneg (by omega) (by norm_num)
      · rw [if_neg hday] at h
        simp at h
    · rw [if_neg hlt] at h
      simp only [Option.some.injEq, Prod.mk.injEq] at h
      obtain ⟨hd', hua⟩ := h
      subst hua
      unfold DateTime.timeLt at hlt
      dsimp only at hlt
      have hle : now_time.toSec ≤ DateTime.toSec
          ⟨now_time.year, now_time.month, now_time.day, hh, mm, 0⟩ := by
        unfold DateTime.toSec
        dsimp only
        omega
      refine ⟨?_, hle⟩
      rw [← hd']
      exact Int.tdiv_nonneg (by omega) (by norm_num)

/-- Witness for C9: now 08:00, `unlock_at = "09:00"` gives 60 minutes
and an unlock instant one hour ahead. -/
theorem c9_unlock_never_in_past_witness :
    (0 : Int) ≤ 60 ∧
      DateTime.toSec ⟨2024, 1, 30, 8, 0, 0⟩ ≤
        DateTime.toSec ⟨2024, 1, 30, 9, 0, 0⟩ :=
  c9_unlock_never_in_past [("unlock_at", PVal.vStr "09:00")]
    ⟨2024, 1, 30, 8, 0, 0⟩ 60 ⟨2024, 1, 30, 9, 0, 0⟩
    (by decide) (by decide)

/-- C2 (amended): provided the current date is not the last day of its
month, `calculate_unlock_at` combines the configured HH:MM with today's
date, advances the candidate by exactly one day (86400 s) when its
time-of-day is strictly earlier than now's, keeps it otherwise, stores
that instant and returns the whole-minute span from now to it; in
particular now = 10:00 UTC with `unlock_at = "09:00"` yields 09:00
tomorrow and 1380 minutes.  (On the last day of a month the code raises
instead — see the C1/C2 counterexamples.) -/
theorem c2_unlock_at_rolls_day :
    (∀ (pcfg : PDict) (now_time : DateTime) (u : String) (hh mm : Nat),
      pdGet pcfg "unlock_at" = some (PVal.vStr u) →
      strptimeHM u = some (hh, mm) →
      now_time.day < daysInMonth now_time.year now_time.month →
      ∃ ua : DateTime,
        calculate_unlock_at pcfg now_time =
          some (calculate_timespan (now_time.toSec : Int)
            (ua.toSec : Int), ua) ∧
        ua.hour = hh ∧ ua.minute = mm ∧
        ua.year = now_time.year ∧ ua.month = now_time.month ∧
        (DateTime.timeLt
            ⟨now_time.year, now_time.month, now_time.day, hh, mm, 0⟩
            now_time →
          ua.toSec = DateTime.toSec
            ⟨now_time.year, now_time.month, now_time.day, hh, mm, 0⟩
              + 86400) ∧
        (¬ DateTime.timeLt
            ⟨now_time.year, now_time.month, now_time.day, hh, mm, 0⟩
            now_time →
          ua = ⟨now_time.year, now_time.month, now_time.day,
            hh, mm, 0⟩)) ∧
    calculate_unlock_at [("unlock_at", PVal.vStr "09:00")]
        ⟨2024, 1, 30, 10, 0, 0⟩ =
      some (1380, ⟨2024, 1, 31, 9, 0, 0⟩) := by
  constructor
  · intro pcfg now_time u hh mm hu hp hd
    have hp' : strptimeHM (pyStrOf (pdGet pcfg "unlock_at")) =
        some (hh, mm) := by
      rw [hu]
      exact hp
    rw [calculate_unlock_at_eq pcfg now_time hh mm hp']
    by_cases hlt : DateTime.timeLt
        ⟨now_time.year, now_time.month, now_time.day, hh, mm, 0⟩ now_time
    · rw [if_pos hlt, if_pos (by omega :
        now_time.day + 1 ≤ daysInMonth now_time.year now_time.month)]
      refine ⟨⟨now_time.year, now_time.month, now_time.day + 1,
        hh, mm, 0⟩, rfl, rfl, rfl, rfl, rfl, fun _ => ?_,
        fun hn => absurd hlt hn⟩
      exact toSec_day_succ now_time.year now_time.month now_time.day hh mm
    · rw [if_neg hlt]
      exact ⟨⟨now_time.year, now_time.month, now_time.day, hh, mm, 0⟩,
        rfl, rfl, rfl, rfl, rfl, fun hc => absurd hc hlt, fun _ => rfl⟩
  · decide

/-- Witness for the universally quantified part of the C2 theorem: the
08:00-today case of the spec. -/
theorem c2_unlock_at_rolls_day_witness :
    ∃ ua : DateTime,
      calculate_unlock_at [("unlock_at", PVal.vStr "09:00")]
          ⟨2024, 1, 30, 8, 0, 0⟩ =
        some (calculate_timespan
          ((⟨2024, 1, 30, 8, 0, 0⟩ : DateTime).toSec : Int)
          (ua.toSec : Int), ua) ∧
      ua.hour = 9 ∧ ua.minute = 0 ∧ ua.year = 2024 ∧ ua.month = 1 ∧
      (DateTime.timeLt ⟨2024, 1, 30, 9, 0, 0⟩ ⟨2024, 1, 30, 8, 0, 0⟩ →
        ua.toSec = DateTime.toSec ⟨2024, 1, 30, 9, 0, 0⟩ + 86400) ∧
      (¬ DateTime.timeLt ⟨2024, 1, 30, 9, 0, 0⟩ ⟨2024, 1, 30, 8, 0, 0⟩ →
        ua = ⟨2024, 1, 30, 9, 0, 0⟩) :=
  c2_unlock_at_rolls_day.1 [("unlock_at", PVal.vStr "09:00")]
    ⟨2024, 1, 30, 8, 0, 0⟩ "09:00" 9 0 (by decide) (by decide) (by decide)

/-- C8 counterexample: a constructed instance with
`stop_duration_candles = 0` has `stopDurationCandles` set (to 0), yet
`stop_duration_str` renders the minutes form, because Python's
`if self._stop_duration_candles:` treats 0 as falsy. -/
theorem c8_zero_candles_counterexample :
    initDurations 5 [] [("stop_duration_candles", PVal.vInt 0)] =
      some ⟨[], [("stop_duration_candles", PVal.vInt 0)], some 0, none,
        none, 0, 60⟩ ∧
    (⟨[], [("stop_duration_candles", PVal.vInt 0)], some 0, none, none,
        0, 60⟩ : IProtection)._stop_duration_candles = some 0 ∧
    stop_duration_str ⟨[], [("stop_duration_candles", PVal.vInt 0)],
        some 0, none, none, 0, 60⟩ = "0 minutes" ∧
    stop_duration_str ⟨[], [("stop_duration_candles", PVal.vInt 0)],
        some 0, none, none, 0, 60⟩ ≠
      toString (0 : Int) ++ " " ++ plural 0 "candle" "candles" := by
  refine ⟨by decide, rfl, by decide, by decide⟩

/-- C8 (amended): `stop_duration_str` renders the candle form
`"<N> candle"`/`"<N> candles"` (singular exactly for N = 1) whenever a
*non-zero* candle count is set, and the minutes form over
`stopDurationMinutes` otherwise — i.e. when the candle count is absent
or zero, the latter being Python falsiness of the stored 0. -/
theorem c8_display_pluralizes (s : IProtection) :
    (∀ n : Int, s._stop_duration_candles = some n → n ≠ 0 →
      stop_duration_str s = toString n ++ " " ++
        (if n = 1 then "candle" else "candles")) ∧
    (s._stop_duration_candles = none ∨ s._stop_duration_candles = some 0 →
      stop_duration_str s = toString s._stop_duration ++ " " ++
        (if s._stop_duration = 1 then "minute" else "minutes")) := by
  constructor
  · intro n hn hne
    unfold stop_duration_str
    rw [hn]
    dsimp only
    rw [if_pos hne]
    rfl
  · intro h
    rcases h with h | h <;> unfold stop_duration_str <;> rw [h]
    · rfl
    · dsimp only
      rw [if_neg (by simp : ¬ (0 : Int) ≠ 0)]
      rfl

/-- Witness for C8: the four pluralization examples of the claim
(1 candle, 2 candles, 1 minute, 60 minutes). -/
theorem c8_display_pluralizes_witness :
    stop_duration_str ⟨[], [], some 1, none, none, 5, 60⟩ =
        toString (1 : Int) ++ " " ++
          (if (1 : Int) = 1 then "candle" else "candles") ∧
    stop_duration_str ⟨[], [], some 2, none, none, 10, 60⟩ =
        toString (2 : Int) ++ " " ++
          (if (2 : Int) = 1 then "candle" else "candles") ∧
    stop_duration_str ⟨[], [], none, none, none, 1, 60⟩ =
        toString (1 : Int) ++ " " ++
          (if (1 : Int) = 1 then "minute" else "minutes") ∧
    stop_duration_str ⟨[], [], none, none, none, 60, 60⟩ =
        toString (60 : Int) ++ " " ++
          (if (60 : Int) = 1 then "minute" else "minutes") :=
  ⟨(c8_display_pluralizes ⟨[], [], some 1, none, none, 5, 60⟩).1 1 rfl
      (by decide),
    (c8_display_pluralizes ⟨[], [], some 2, none, none, 10, 60⟩).1 2 rfl
      (by decide),
    (c8_display_pluralizes ⟨[], [], none, none, none, 1, 60⟩).2
      (Or.inl rfl),
    (c8_display_pluralizes ⟨[], [], none, none, none, 60, 60⟩).2
      (Or.inl rfl)⟩
